import Mathlib

/-!
Shallow embedding of the Sengled Home Assistant integration
(`api/api.py`, `api/elements.py`) for verifying the specification claims.

Python dicts are modelled as insertion-ordered association lists
(`List (String × β)`), with assignment replacing the first occurrence of a
key in place and appending fresh keys — exactly Python's `dict` semantics
for duplicate-free key lists.  Exact rational arithmetic stands in for
Python floats in the color-temperature codecs; `math.ceil (a / b)` with
`b > 0` is integer ceiling division.  Coroutine side effects (logging,
MQTT subscribe/publish, sleeps) are made explicit as event lists or
counters; exceptions become sum-type results.
-/

namespace Sengled

/-! ### Python dict model -/

/-- `d[k]` as a total lookup: the value at the first occurrence of key `k`. -/
def dlookup {β : Type} (k : String) : List (String × β) → Option β
  | [] => none
  | (k₀, v₀) :: rest => if k = k₀ then some v₀ else dlookup k rest

/-- `d[k] = v` on a Python dict: replace the first binding of `k` in place,
or append a fresh binding at the end. -/
def dinsert {β : Type} : List (String × β) → String → β → List (String × β)
  | [], k, v => [(k, v)]
  | (k₀, v₀) :: rest, k, v =>
    if k₀ = k then (k, v) :: rest else (k₀, v₀) :: dinsert rest k v

/-- `d.update(kvs)` / `d | kvs`: fold `dinsert` over the updates in order. -/
def dupdate {β : Type} (d : List (String × β)) (kvs : List (String × β)) :
    List (String × β) :=
  kvs.foldl (fun acc kv => dinsert acc kv.1 kv.2) d

/-- The keys of an association list. -/
def dkeys {β : Type} (d : List (String × β)) : List String :=
  d.map Prod.fst

/-- A Python dict never has duplicate keys. -/
def NodupKeys {β : Type} (d : List (String × β)) : Prop :=
  (dkeys d).Nodup

/-- A JSON object with string values, as delivered in status payloads. -/
abbrev Dict := List (String × String)

/-! ### `ElementsBulb.update_bulb` (elements.py) -/

/-- The packet-building loop of `update_bulb`: falsy (empty) items are
skipped; an item missing `"type"` or `"value"` raises `KeyError`, modelled
as `none` (the packet built so far is discarded). -/
def buildPacket : List Dict → Dict → Option Dict
  | [], packet => some packet
  | item :: rest, packet =>
    if item = [] then buildPacket rest packet
    else
      match dlookup "type" item, dlookup "value" item with
      | some t, some v => buildPacket rest (dinsert packet t v)
      | _, _ => none

/-- `update_bulb(payload)` on a bulb whose `_data` is `data`: returns the
new `_data` together with the number of warnings logged.  On a `KeyError`
the merge never happens (`self._data.update` is unreached) and exactly one
warning is logged. -/
def update_bulb (data : Dict) (payload : List Dict) : Dict × Nat :=
  match buildPacket payload [] with
  | some packet => (dupdate data packet, 0)
  | none => (data, 1)

/-- The inbound status payload once JSON-decoded: either not a list at
all, or a list of entry objects. -/
inductive StatusPayload where
  | notList
  | items (l : List Dict)

/-- The payload-validation part of `API._handle_status` for a message
whose target device is registered: a non-list payload logs one warning and
leaves the device untouched; a list is handed to `update_bulb`.  Returns
the device's new `_data` and the number of warnings logged for this
message. -/
def handle_status (data : Dict) (p : StatusPayload) : Dict × Nat :=
  match p with
  | .notList => (data, 1)
  | .items l => update_bulb data l

/-! ### Color-temperature codecs (elements.py) -/

/-- Integer ceiling division `⌈a / b⌉` for `b > 0`. -/
def iceil (a b : ℤ) : ℤ := (a + b - 1) / b

/-- `_decode_color_temp(value_pct, min_mireds, max_mireds)`:
`math.ceil(max_mireds - value_pct / 100 * (max_mireds - min_mireds))`,
computed exactly over the rationals. -/
def _decode_color_temp (value_pct min_mireds max_mireds : ℤ) : ℤ :=
  iceil (100 * max_mireds - value_pct * (max_mireds - min_mireds)) 100

/-- `_encode_color_temp(value_mireds, min_mireds, max_mireds)`:
`math.ceil((max_mireds - value_mireds) / (max_mireds - min_mireds) * 100)`,
computed exactly over the rationals. -/
def _encode_color_temp (value_mireds min_mireds max_mireds : ℤ) : ℤ :=
  iceil ((max_mireds - value_mireds) * 100) (max_mireds - min_mireds)

/-! ### `API._async_login` (api.py) -/

/-- The parsed JSON body of a login response carrying the fields the code
reads. -/
structure LoginResponse where
  status : Nat
  ret : ℤ
  msg : String
  jsessionId : String
deriving DecidableEq

/-- What the HTTP POST to the identity endpoint produced: a response, or a
transport-level fault (timeout, connection error — `aiohttp.ClientError`). -/
inductive LoginHttp where
  | response (r : LoginResponse)
  | clientError (e : String)
deriving DecidableEq

/-- The observable outcome of `_async_login`: the stored session token, or
an `AuthError`. -/
inductive LoginResult where
  | success (jsessionId : String)
  | authError (msg : String)
deriving DecidableEq

/-- `_async_login`: HTTP status ≠ 200 raises `AuthError`; body status
`ret ≠ 0` raises `AuthError`; a transport fault is caught and re-raised as
`AuthError`; otherwise `_jsession_id` is set from the body. -/
def _async_login : LoginHttp → LoginResult
  | .clientError e => .authError ("Login failed due to network issue: " ++ e)
  | .response r =>
    if r.status ≠ 200 then .authError ("HTTP error " ++ toString r.status)
    else if r.ret ≠ 0 then .authError ("Login failed: " ++ r.msg)
    else .success r.jsessionId

/-! ### Association-list lemmas -/

/-- First-some choice on options (`x if x is not None else y`). -/
def oor {α : Type} : Option α → Option α → Option α
  | some a, _ => some a
  | none, o => o

theorem oor_none_right {α : Type} (o : Option α) : oor o none = o := by
  cases o <;> rfl

theorem dkeys_cons {β : Type} (x : String × β) (d : List (String × β)) :
    dkeys (x :: d) = x.1 :: dkeys d := rfl

theorem dlookup_dinsert {β : Type} (d : List (String × β)) (k k₁ : String) (v : β) :
    dlookup k (dinsert d k₁ v) = if k = k₁ then some v else dlookup k d := by
  induction d with
  | nil => simp [dinsert, dlookup]
  | cons hd tl ih =>
    obtain ⟨k₀, v₀⟩ := hd
    by_cases h : k₀ = k₁
    · subst h
      by_cases hk : k = k₀ <;> simp [dinsert, dlookup, hk]
    · by_cases hk : k = k₀
      · have hne : k ≠ k₁ := by rw [hk]; exact h
        simp [dinsert, dlookup, h, hk, hne]
      · simp [dinsert, dlookup, h, hk, ih]

theorem dlookup_append {β : Type} (d₁ d₂ : List (String × β)) (k : String) :
    dlookup k (d₁ ++ d₂) = oor (dlookup k d₁) (dlookup k d₂) := by
  induction d₁ with
  | nil => simp [dlookup, oor]
  | cons hd tl ih =>
    obtain ⟨k₀, v₀⟩ := hd
    by_cases hk : k = k₀ <;> simp [dlookup, hk, ih, oor]

theorem dupdate_cons {β : Type} (d : List (String × β)) (kv : String × β)
    (kvs : List (String × β)) :
    dupdate d (kv :: kvs) = dupdate (dinsert d kv.1 kv.2) kvs := rfl

theorem dlookup_dupdate {β : Type} (d kvs : List (String × β)) (k : String) :
    dlookup k (dupdate d kvs) = oor (dlookup k kvs.reverse) (dlookup k d) := by
  induction kvs generalizing d with
  | nil => simp [dupdate, dlookup, oor]
  | cons kv rest ih =>
    rw [dupdate_cons, ih, List.reverse_cons, dlookup_append, dlookup_dinsert]
    have hkv : dlookup k [kv] = if k = kv.1 then some kv.2 else none := by
      obtain ⟨a, b⟩ := kv
      simp [dlookup]
    rw [hkv]
    cases hr : dlookup k rest.reverse <;> by_cases hk : k = kv.1 <;>
      simp [oor, hk]

theorem mem_dkeys_dinsert {β : Type} (d : List (String × β)) (k a : String) (v : β) :
    a ∈ dkeys (dinsert d k v) → a = k ∨ a ∈ dkeys d := by
  induction d with
  | nil => simp [dinsert, dkeys]
  | cons hd tl ih =>
    obtain ⟨k₀, v₀⟩ := hd
    by_cases h : k₀ = k
    · subst h
      rw [dinsert, if_pos rfl, dkeys_cons]
      intro hmem
      rcases List.mem_cons.mp hmem with rfl | htl
      · exact Or.inl rfl
      · exact Or.inr (by rw [dkeys_cons]; exact List.mem_cons_of_mem _ htl)
    · rw [dinsert, if_neg h, dkeys_cons]
      intro hmem
      rcases List.mem_cons.mp hmem with rfl | htl
      · exact Or.inr (by rw [dkeys_cons]; exact List.mem_cons_self _ _)
      · rcases ih htl with h₁ | h₂
        · exact Or.inl h₁
        · exact Or.inr (by rw [dkeys_cons]; exact List.mem_cons_of_mem _ h₂)

theorem nodupKeys_dinsert {β : Type} (d : List (String × β)) (k : String) (v : β)
    (hd : NodupKeys d) : NodupKeys (dinsert d k v) := by
  induction d with
  | nil => simp [dinsert, NodupKeys, dkeys]
  | cons hd₀ tl ih =>
    obtain ⟨k₀, v₀⟩ := hd₀
    rw [NodupKeys, dkeys, List.map_cons, List.nodup_cons] at hd
    by_cases h : k₀ = k
    · subst h
      rw [NodupKeys, dinsert, if_pos rfl, dkeys, List.map_cons, List.nodup_cons]
      exact ⟨hd.1, hd.2⟩
    · rw [NodupKeys, dinsert, if_neg h, dkeys, List.map_cons, List.nodup_cons]
      refine ⟨fun hmem => ?_, ih hd.2⟩
      rcases mem_dkeys_dinsert tl k k₀ v hmem with h₁ | h₂
      · exact h h₁
      · exact hd.1 h₂

theorem nodupKeys_dupdate {β : Type} (d kvs : List (String × β))
    (hd : NodupKeys d) : NodupKeys (dupdate d kvs) := by
  induction kvs generalizing d with
  | nil => exact hd
  | cons kv rest ih =>
    rw [dupdate_cons]
    exact ih _ (nodupKeys_dinsert d kv.1 kv.2 hd)

theorem dlookup_eq_none {β : Type} (d : List (String × β)) (k : String) :
    dlookup k d = none ↔ k ∉ dkeys d := by
  induction d with
  | nil => simp [dlookup, dkeys]
  | cons hd tl ih =>
    obtain ⟨k₀, v₀⟩ := hd
    by_cases hk : k = k₀ <;> simp [dlookup, dkeys, hk, ih]

theorem dlookup_mem {β : Type} (d : List (String × β)) (k : String) (v : β)
    (hd : NodupKeys d) (hmem : (k, v) ∈ d) : dlookup k d = some v := by
  induction d with
  | nil => simp at hmem
  | cons hd₀ tl ih =>
    obtain ⟨k₀, v₀⟩ := hd₀
    rw [NodupKeys, dkeys, List.map_cons, List.nodup_cons] at hd
    rcases List.mem_cons.mp hmem with heq | htl
    · obtain ⟨rfl, rfl⟩ := Prod.mk.injEq .. ▸ heq
      simp [dlookup]
    · have hk : k ≠ k₀ := by
        rintro rfl
        exact hd.1 (List.mem_map.mpr ⟨(k, v), htl, rfl⟩)
      simp [dlookup, hk, ih hd.2 htl]

theorem dlookup_reverse {β : Type} (d : List (String × β)) (k : String)
    (hd : NodupKeys d) : dlookup k d.reverse = dlookup k d := by
  induction d with
  | nil => rfl
  | cons hd₀ tl ih =>
    obtain ⟨k₀, v₀⟩ := hd₀
    rw [NodupKeys, dkeys, List.map_cons, List.nodup_cons] at hd
    rw [List.reverse_cons, dlookup_append]
    by_cases hk : k = k₀
    · subst hk
      have : dlookup k tl = none := (dlookup_eq_none tl k).mpr hd.1
      have hrev : dlookup k tl.reverse = none := by
        rw [ih hd.2]; exact this
      simp [hrev, oor, dlookup, this]
    · simp [dlookup, hk, ih hd.2, oor_none_right]

theorem dinsert_self {β : Type} (d : List (String × β)) (k : String) (v : β)
    (h : dlookup k d = some v) : dinsert d k v = d := by
  induction d with
  | nil => simp [dlookup] at h
  | cons hd₀ tl ih =>
    obtain ⟨k₀, v₀⟩ := hd₀
    by_cases hk : k = k₀
    · subst hk
      simp [dlookup] at h
      simp [dinsert, h]
    · rw [dlookup, if_neg hk] at h
      have hne : k₀ ≠ k := fun hc => hk hc.symm
      simp [dinsert, hne, ih h]

theorem dupdate_self {β : Type} (d kvs : List (String × β))
    (h : ∀ kv ∈ kvs, dlookup kv.1 d = some kv.2) : dupdate d kvs = d := by
  induction kvs with
  | nil => rfl
  | cons kv rest ih =>
    rw [dupdate_cons, dinsert_self d kv.1 kv.2 (h kv (List.mem_cons_self kv rest))]
    exact ih fun kv₀ hmem => h kv₀ (List.mem_cons_of_mem kv hmem)

/-! ### Claim C7 / C6 : status-payload merge -/

/-- A well-formed status payload: each entry is either falsy (skipped)
or carries both a `"type"` and a `"value"` key. -/
def ValidPayload (l : List Dict) : Prop :=
  ∀ item ∈ l, item = [] ∨
    ((dlookup "type" item).isSome ∧ (dlookup "value" item).isSome)

/-- The `(type, value)` pairs a payload contributes, in order. -/
def batchPairs (l : List Dict) : List (String × String) :=
  l.filterMap fun item =>
    match dlookup "type" item, dlookup "value" item with
    | some t, some v => some (t, v)
    | _, _ => none

theorem buildPacket_valid (l : List Dict) (hv : ValidPayload l) (packet : Dict) :
    buildPacket l packet = some (dupdate packet (batchPairs l)) := by
  induction l generalizing packet with
  | nil => rfl
  | cons item rest ih =>
    have hrest : ValidPayload rest := fun i hi => hv i (List.mem_cons_of_mem item hi)
    by_cases he : item = []
    · subst he
      simp [buildPacket, batchPairs, dlookup, ih hrest]
    · rcases hv item (List.mem_cons_self item rest) with h | ⟨ht, hval⟩
      · exact absurd h he
      · obtain ⟨t, hts⟩ := Option.isSome_iff_exists.mp ht
        obtain ⟨v, hvs⟩ := Option.isSome_iff_exists.mp hval
        have hbp : batchPairs (item :: rest) = (t, v) :: batchPairs rest := by
          simp [batchPairs, hts, hvs]
        rw [buildPacket, if_neg he, hts, hvs, hbp, dupdate_cons]
        exact ih hrest (dinsert packet t v)

theorem buildPacket_bad (l : List Dict) (packet : Dict)
    (h : ∃ item ∈ l, item ≠ [] ∧
      (dlookup "type" item = none ∨ dlookup "value" item = none)) :
    buildPacket l packet = none := by
  induction l generalizing packet with
  | nil => simp at h
  | cons item rest ih =>
    obtain ⟨bad, hmem, hne, hk⟩ := h
    rcases List.mem_cons.mp hmem with rfl | htl
    · rw [buildPacket, if_neg hne]
      rcases hk with h₁ | h₂
      · rw [h₁]
      · rw [h₂]
        cases dlookup "type" bad <;> rfl
    · by_cases he : item = []
      · subst he
        rw [buildPacket, if_pos rfl]
        exact ih _ ⟨bad, htl, hne, hk⟩
      · rw [buildPacket, if_neg he]
        cases dlookup "type" item with
        | none => rfl
        | some t =>
          cases dlookup "value" item with
          | none => rfl
          | some v => exact ih _ ⟨bad, htl, hne, hk⟩

/-- `C7`: for every device state and every valid update batch, the merge is
last-write-wins per key — each key's new value is its last value in the
batch, falling back to the prior state — no warning is logged, and the
application is idempotent: applying the same batch twice equals applying
it once. -/
theorem C7_update_batch (data : Dict) (l : List Dict) (hv : ValidPayload l) :
    (update_bulb data l).2 = 0 ∧
    (∀ k, dlookup k (update_bulb data l).1
        = oor (dlookup k (batchPairs l).reverse) (dlookup k data)) ∧
    update_bulb (update_bulb data l).1 l = ((update_bulb data l).1, 0) := by
  have hbuild := buildPacket_valid l hv []
  have hpacket : NodupKeys (dupdate ([] : Dict) (batchPairs l)) :=
    nodupKeys_dupdate [] (batchPairs l) (by simp [NodupKeys, dkeys])
  have hrun : update_bulb data l = (dupdate data (dupdate [] (batchPairs l)), 0) := by
    rw [update_bulb, hbuild]
  have hlook : ∀ k, dlookup k (dupdate data (dupdate [] (batchPairs l)))
      = oor (dlookup k (batchPairs l).reverse) (dlookup k data) := by
    intro k
    rw [dlookup_dupdate, dlookup_reverse _ _ hpacket, dlookup_dupdate]
    simp [dlookup, oor_none_right]
  have hfix : dupdate (dupdate data (dupdate [] (batchPairs l)))
      (dupdate [] (batchPairs l)) = dupdate data (dupdate [] (batchPairs l)) := by
    refine dupdate_self _ _ fun kv hmem => ?_
    have hv₀ : dlookup kv.1 (dupdate [] (batchPairs l)) = some kv.2 :=
      dlookup_mem _ kv.1 kv.2 hpacket hmem
    rw [hlook kv.1]
    rw [dlookup_dupdate, dlookup, oor_none_right] at hv₀
    rw [hv₀]
    rfl
  refine ⟨by rw [hrun], by rw [hrun]; exact hlook, ?_⟩
  rw [hrun, update_bulb, hbuild]
  show (dupdate (dupdate data (dupdate [] (batchPairs l)))
      (dupdate [] (batchPairs l)), 0) = (dupdate data (dupdate [] (batchPairs l)), 0)
  rw [hfix]

/-- `C7` witness at a concrete state and batch. -/
theorem C7_update_batch_witness :
    dlookup "switch"
      (update_bulb [("switch", "0")] [[("type", "switch"), ("value", "1")]]).1
      = some "1" := by
  have h := C7_update_batch [("switch", "0")]
    [[("type", "switch"), ("value", "1")]]
    (by intro item hmem; simp at hmem; subst hmem; right; decide)
  rw [h.2.1 "switch"]
  decide

/-- `C6` counterexample: the empty entry `{}` is missing both the `type`
and the `value` key, so `[{"type": "x", "value": "1"}, {}]` is a malformed
payload as the claim words it — yet `update_bulb`'s `if not item: continue`
silently skips the falsy entry, the valid entry is merged into the
device's state, and no warning at all is logged. -/
theorem C6_counterexample :
    dlookup "type" ([] : Dict) = none ∧
    dlookup "value" ([] : Dict) = none ∧
    handle_status [("a", "b")]
        (.items [[("type", "x"), ("value", "1")], []])
      = ([("a", "b"), ("x", "1")], 0) := by
  decide

/-- A malformed status payload, per the amended claim: not a list, or a
list with a non-empty entry missing the `"type"` or `"value"` key.  Empty
(falsy) entries are excluded: `update_bulb` skips them silently. -/
def MalformedPayload : StatusPayload → Prop
  | .notList => True
  | .items l => ∃ item ∈ l, item ≠ [] ∧
      (dlookup "type" item = none ∨ dlookup "value" item = none)

/-- `C6` (amended): for every status payload that is not a list, or that
contains a non-empty entry missing the `type` or `value` key, the targeted
device's state is unchanged by handling the message — no partial merge —
and exactly one warning is logged for that message.  (Empty entries are
not malformed: they are silently skipped, as `C6_counterexample` shows.) -/
theorem C6_malformed (data : Dict) (p : StatusPayload)
    (h : MalformedPayload p) : handle_status data p = (data, 1) := by
  cases p with
  | notList => rfl
  | items l =>
    rw [handle_status, update_bulb, buildPacket_bad l [] h]

/-- `C6` witness: an entry missing `"type"` leaves the state alone and
logs one warning. -/
theorem C6_malformed_witness :
    handle_status [("a", "b")] (.items [[("value", "1")]]) = ([("a", "b")], 1) :=
  C6_malformed [("a", "b")] (.items [[("value", "1")]])
    ⟨[("value", "1")], by simp, by decide, Or.inl (by decide)⟩

/-! ### Claim C8 : color-temperature round-trip -/

set_option maxRecDepth 4000 in
/-- `C8` counterexample: `v = 368` lies in `[154, 400]`, but
`_decode_color_temp (_encode_color_temp 368 154 400) 154 400 = 366`, which
is 2 away from 368 — the claimed bound of 1 unit fails. -/
theorem C8_counterexample :
    (154 : ℤ) ≤ 368 ∧ (368 : ℤ) ≤ 400 ∧
    _decode_color_temp (_encode_color_temp 368 154 400) 154 400 = 366 ∧
    ¬ |_decode_color_temp (_encode_color_temp 368 154 400) 154 400 - 368| ≤ 1 := by
  decide

set_option maxRecDepth 100000 in
set_option maxHeartbeats 1000000 in
theorem C8_roundtrip_bound_nat : ∀ n : ℕ, n < 247 →
    |_decode_color_temp (_encode_color_temp (154 + (n : ℤ)) 154 400) 154 400
      - (154 + (n : ℤ))| ≤ 2 := by
  decide

/-- `C8` (amended): for every integer color-temperature value `v` in
`[154, 400]`, decoding the encoded value round-trips to within 2 units. -/
theorem C8_roundtrip (v : ℤ) (h₁ : 154 ≤ v) (h₂ : v ≤ 400) :
    |_decode_color_temp (_encode_color_temp v 154 400) 154 400 - v| ≤ 2 := by
  have hv : v = 154 + ((v - 154).toNat : ℤ) := by omega
  have hlt : (v - 154).toNat < 247 := by omega
  rw [hv]
  exact C8_roundtrip_bound_nat _ hlt

/-- `C8` witness at `v = 300`. -/
theorem C8_roundtrip_witness :
    |_decode_color_temp (_encode_color_temp 300 154 400) 154 400 - 300| ≤ 2 :=
  C8_roundtrip 300 (by decide) (by decide)

/-! ### Claim C1 : login -/

/-- `C1`: login succeeds, storing the token from the response body, iff
the HTTP status is 200 and the body's `ret` field is 0; any other HTTP
status, non-zero `ret`, or transport fault yields `AuthError`, with auth
and connectivity failures indistinguishable to the caller. -/
theorem C1_login (h : LoginHttp) :
    (∀ r, h = .response r →
      (_async_login h = .success r.jsessionId ↔ r.status = 200 ∧ r.ret = 0)) ∧
    (∀ r, h = .response r → ¬(r.status = 200 ∧ r.ret = 0) →
      ∃ m, _async_login h = .authError m) ∧
    (∀ e, h = .clientError e → ∃ m, _async_login h = .authError m) ∧
    (∀ t, _async_login h = .success t →
      ∃ r, h = .response r ∧ r.status = 200 ∧ r.ret = 0 ∧ t = r.jsessionId) := by
  refine ⟨?_, ?_, ?_, ?_⟩
  · rintro r rfl
    by_cases hs : r.status = 200 <;> by_cases hr : r.ret = 0 <;>
      simp [_async_login, hs, hr]
  · rintro r rfl hne
    by_cases hs : r.status = 200
    · by_cases hr : r.ret = 0
      · exact absurd ⟨hs, hr⟩ hne
      · exact ⟨"Login failed: " ++ r.msg, by simp [_async_login, hs, hr]⟩
    · exact ⟨"HTTP error " ++ toString r.status, by simp [_async_login, hs]⟩
  · rintro e rfl
    exact ⟨_, rfl⟩
  · intro t ht
    cases h with
    | clientError e => simp [_async_login] at ht
    | response r =>
      by_cases hs : r.status = 200 <;> by_cases hr : r.ret = 0 <;>
        simp [_async_login, hs, hr] at ht
      exact ⟨r, rfl, hs, hr, ht.symm⟩

/-- `C1` witness: a 200/ret-0 response stores the body's token; a 503
stores nothing and fails with `AuthError`. -/
theorem C1_login_witness :
    _async_login (.response ⟨200, 0, "", "tok"⟩) = .success "tok" ∧
    ∃ m, _async_login (.response ⟨503, 0, "", "tok"⟩) = .authError m :=
  ⟨((C1_login (.response ⟨200, 0, "", "tok"⟩)).1 _ rfl).mpr ⟨rfl, rfl⟩,
   (C1_login (.response ⟨503, 0, "", "tok"⟩)).2.1 _ rfl (by decide)⟩

/-! ### Supervisor, registry and channel model (api.py)

The coroutine side effects of `async_start` and its helpers are made
explicit as a trace of events; the environment's choices (which connect
attempts fail, how the message loop eventually dies) are inputs. -/

/-- The slice of a registered device object the API consumes. -/
structure Light where
  uniqueId : String
deriving DecidableEq

/-- `ElementsBulb.mqtt_topics`: the device's subscribable topic list. -/
def mqtt_topics (l : Light) : List String :=
  ["wifielement/" ++ l.uniqueId ++ "/status"]

/-- Observable actions of the supervisor and its helpers. -/
inductive Event where
  | login
  | getServerInfo
  | discoverLights
  | connectAttempt (n : Nat)
  | sleep (secs : Nat)
  | registryInsert (id : String)
  | subscribe (topic : String)
  | messageLoop
deriving DecidableEq

/-- The API object's mutable state: the `_lights` registry dict and
whether `self._mqtt` holds a live client. -/
structure APIState where
  lights : List (String × Light)
  mqttLive : Bool
deriving DecidableEq

/-- `_subscribe_light`: subscribes each of the light's topics, but only
when `self._mqtt` is set — with no channel it is a no-op. -/
def _subscribe_light (st : APIState) (l : Light) : List Event :=
  if st.mqttLive then (mqtt_topics l).map Event.subscribe else []

/-- `async_register_light`: insert into `_lights` under the mutex, then
attempt the subscribe. -/
def async_register_light (st : APIState) (l : Light) : APIState × List Event :=
  let st₁ : APIState := { st with lights := dinsert st.lights l.uniqueId l }
  (st₁, Event.registryInsert l.uniqueId :: _subscribe_light st₁ l)

/-- The subscription replay `_async_setup_mqtt` performs after a
successful connect: the registry snapshot's topic lists, in order. -/
def snapshotSubs (st : APIState) : List Event :=
  (st.lights.map Prod.snd).flatMap fun l => (mqtt_topics l).map Event.subscribe

/-- The `for attempt in range(3)` body of `_async_setup_mqtt`, iterated
over the remaining attempt indices.  `connectFails n = true` means
`client.connect()` raises `MqttConnectError` on attempt `n`.  Returns the
new state, the trace (connect attempts, backoff sleeps, subscription
replay) and whether the channel came up (`false` means the final
`MqttConnectError` was re-raised). -/
def setupGo (connectFails : Nat → Bool) (st : APIState) :
    List Nat → APIState × List Event × Bool
  | [] => (st, [], false)
  | attempt :: rest =>
    if connectFails attempt then
      if attempt < 2 then
        let r := setupGo connectFails st rest
        (r.1, Event.connectAttempt attempt :: Event.sleep (2 ^ attempt) :: r.2.1,
          r.2.2)
      else (st, [Event.connectAttempt attempt], false)
    else
      let st₁ : APIState := { st with mqttLive := true }
      (st₁, Event.connectAttempt attempt :: snapshotSubs st₁, true)

/-- `_async_setup_mqtt`: at most the three attempts `0, 1, 2`. -/
def _async_setup_mqtt (connectFails : Nat → Bool) (st : APIState) :
    APIState × List Event × Bool :=
  setupGo connectFails st [0, 1, 2]

/-- How `_message_loop` eventually dies: the channel raises
`MqttConnectError` (connection-refused class) or a plain `MqttError`. -/
inductive LoopFate where
  | refused
  | dropped

/-- The environment's behaviour for one iteration of `async_start`'s
`while True` loop. -/
structure IterSchedule where
  connectFails : Nat → Bool
  fate : LoopFate

/-- One iteration of the `while True` body with its `except` clauses:
`MqttConnectError` (from setup exhaustion or from the loop) → log and
`_async_login` again; any other `MqttError` → log and
`asyncio.sleep(10)`. -/
def whileIter (st : APIState) (it : IterSchedule) : APIState × List Event :=
  let r := _async_setup_mqtt it.connectFails st
  if r.2.2 then
    match it.fate with
    | .refused => (r.1, r.2.1 ++ [Event.messageLoop, Event.login])
    | .dropped => (r.1, r.2.1 ++ [Event.messageLoop, Event.sleep 10])
  else
    (r.1, r.2.1 ++ [Event.login])

/-- The supervisor loop run for the given finite schedule of iterations. -/
def loopRun (st : APIState) : List IterSchedule → APIState × List Event
  | [] => (st, [])
  | it :: rest =>
    let r := whileIter st it
    let r₂ := loopRun r.1 rest
    (r₂.1, r.2 ++ r₂.2)

/-- `async_start`: login, one endpoint resolution, one discovery, then the
supervisor loop. -/
def async_start (st : APIState) (sched : List IterSchedule) :
    APIState × List Event :=
  let r := loopRun st sched
  (r.1, Event.login :: Event.getServerInfo :: Event.discoverLights :: r.2)

/-- The backoff sleeps occurring in a trace, in order. -/
def sleepsOf (ev : List Event) : List Nat :=
  ev.filterMap fun e => match e with | .sleep n => some n | _ => none

/-- The connect attempts occurring in a trace, in order. -/
def connectsOf (ev : List Event) : List Nat :=
  ev.filterMap fun e => match e with | .connectAttempt n => some n | _ => none

/-! ### Outbound publish (`_async_send_updates`, `async_mqtt_publish`) -/

/-- A JSON value in a directive: string fields plus the integer
millisecond timestamp. -/
inductive PVal where
  | s (v : String)
  | n (v : Int)
deriving DecidableEq

/-- A single `{type, value}` directive (a Python dict). -/
abbrev Directive := List (String × PVal)

/-- A serialized outbound publish: target topic and directive batch. -/
structure PublishCall where
  topic : String
  payload : List Directive
deriving DecidableEq

/-- `_async_send_updates(*messages)` on a bulb with identifier `uniqueId`
at time `nowMs`: merges `{"dn": unique_id, "time": now_ms}` into every
directive (`message | extras`) and addresses the device's command topic
`wifielement/{id}/update`. -/
def _async_send_updates (uniqueId : String) (nowMs : Int)
    (messages : List Directive) : PublishCall :=
  let extras : Directive := [("dn", PVal.s uniqueId), ("time", PVal.n nowMs)]
  { topic := "wifielement/" ++ uniqueId ++ "/update",
    payload := messages.map fun m => dupdate m extras }

/-- Whether `self._mqtt.publish` raises `MqttError` for this call. -/
inductive PublishFault where
  | ok
  | mqttError (e : String)

/-- The raw transport publish: it either returns or raises `MqttError`. -/
def mqttPublishRaw (fault : PublishFault) : Except String Unit :=
  match fault with
  | .ok => .ok ()
  | .mqttError e => .error e

/-- `async_mqtt_publish`'s `try`/`except MqttError` around the single
publish attempt: a transport fault is caught and logged (the returned
`Nat` counts error log lines); `.error` — a propagated exception — never
occurs, and there is no retry. -/
def async_mqtt_publish (fault : PublishFault) (_call : PublishCall) :
    Except String Nat :=
  match mqttPublishRaw fault with
  | .ok _ => .ok 0
  | .error _ => .ok 1

/-! ### Supervisor trace lemmas -/

theorem snapshotSubs_shape (st : APIState) :
    ∀ e ∈ snapshotSubs st, ∃ t, e = Event.subscribe t := by
  intro e he
  simp only [snapshotSubs, List.mem_flatMap, List.mem_map] at he
  obtain ⟨l, _, t, _, rfl⟩ := he
  exact ⟨t, rfl⟩

theorem setupGo_shape (f : Nat → Bool) (st : APIState) (attempts : List Nat) :
    ∀ e ∈ (setupGo f st attempts).2.1,
      (∃ n, e = Event.connectAttempt n) ∨ e = Event.sleep 1 ∨
      e = Event.sleep 2 ∨ (∃ t, e = Event.subscribe t) := by
  induction attempts generalizing st with
  | nil => simp [setupGo]
  | cons a rest ih =>
    intro e he
    cases hf : f a with
    | false =>
      simp only [setupGo, hf, Bool.false_eq_true, if_false, List.mem_cons] at he
      rcases he with heq | hsub
      · exact Or.inl ⟨a, heq⟩
      · exact Or.inr (Or.inr (Or.inr (snapshotSubs_shape _ e hsub)))
    | true =>
      by_cases ha : a < 2
      · simp only [setupGo, hf, if_true, ha, List.mem_cons] at he
        rcases he with rfl | rfl | htl
        · exact Or.inl ⟨a, rfl⟩
        · interval_cases a
          · exact Or.inr (Or.inl (by norm_num))
          · exact Or.inr (Or.inr (Or.inl (by norm_num)))
        · exact ih st e htl
      · simp only [setupGo, hf, if_true, ha, if_false, List.mem_cons,
          List.not_mem_nil, or_false] at he
        exact Or.inl ⟨a, he⟩

theorem setup_no_login (f : Nat → Bool) (st : APIState) :
    Event.login ∉ (_async_setup_mqtt f st).2.1 := by
  intro hmem
  rcases setupGo_shape f st [0, 1, 2] _ hmem with ⟨n, h⟩ | h | h | ⟨t, h⟩ <;>
    simp at h

theorem setup_no_gsi (f : Nat → Bool) (st : APIState) :
    Event.getServerInfo ∉ (_async_setup_mqtt f st).2.1 := by
  intro hmem
  rcases setupGo_shape f st [0, 1, 2] _ hmem with ⟨n, h⟩ | h | h | ⟨t, h⟩ <;>
    simp at h

theorem setup_no_sleep10 (f : Nat → Bool) (st : APIState) :
    Event.sleep 10 ∉ (_async_setup_mqtt f st).2.1 := by
  intro hmem
  rcases setupGo_shape f st [0, 1, 2] _ hmem with ⟨n, h⟩ | h | h | ⟨t, h⟩ <;>
    simp at h

theorem whileIter_no_gsi (st : APIState) (it : IterSchedule) :
    Event.getServerInfo ∉ (whileIter st it).2 := by
  cases hs : (_async_setup_mqtt it.connectFails st).2.2
  · simp [whileIter, hs, setup_no_gsi]
  · cases hfate : it.fate <;> simp [whileIter, hs, hfate, setup_no_gsi]

theorem connectsOf_nil : connectsOf [] = [] := rfl

theorem connectsOf_cons_connect (n : Nat) (ev : List Event) :
    connectsOf (Event.connectAttempt n :: ev) = n :: connectsOf ev := by
  simp [connectsOf]

theorem connectsOf_cons_sleep (n : Nat) (ev : List Event) :
    connectsOf (Event.sleep n :: ev) = connectsOf ev := by
  simp [connectsOf]

theorem connectsOf_snapshotSubs (st : APIState) :
    connectsOf (snapshotSubs st) = [] := by
  refine List.filterMap_eq_nil_iff.mpr fun e he => ?_
  obtain ⟨t, rfl⟩ := snapshotSubs_shape st e he
  rfl

theorem loopRun_no_gsi (sched : List IterSchedule) (st : APIState) :
    Event.getServerInfo ∉ (loopRun st sched).2 := by
  induction sched generalizing st with
  | nil => simp [loopRun]
  | cons it rest ih =>
    simp only [loopRun, List.mem_append]
    rintro (h | h)
    · exact whileIter_no_gsi st it h
    · exact ih _ h

/-! ### Claim C2 : connect retry with backoff -/

/-- `C2` counterexample: with every connect attempt failing, the backoff
sleeps are 1s and 2s only — not the claimed 1s, 2s and 4s — and the
connect failure is then surfaced. -/
theorem C2_counterexample :
    sleepsOf (_async_setup_mqtt (fun _ => true) ⟨[], false⟩).2.1 = [1, 2] ∧
    sleepsOf (_async_setup_mqtt (fun _ => true) ⟨[], false⟩).2.1 ≠ [1, 2, 4] ∧
    (_async_setup_mqtt (fun _ => true) ⟨[], false⟩).2.2 = false := by
  decide

/-- `C2` (amended): the supervisor makes at most 3 connect attempts; three
consecutive failures escalate the connect failure to the outer loop after
exponential-backoff delays of 1s and 2s between the attempts (base 1s,
factor 2) — there is no delay after the final failed attempt. -/
theorem C2_backoff (connectFails : Nat → Bool) (st : APIState)
    (h : ∀ n, n < 3 → connectFails n = true) :
    (∀ f s, (connectsOf (_async_setup_mqtt f s).2.1).length ≤ 3) ∧
    (_async_setup_mqtt connectFails st).2.2 = false ∧
    connectsOf (_async_setup_mqtt connectFails st).2.1 = [0, 1, 2] ∧
    sleepsOf (_async_setup_mqtt connectFails st).2.1 = [1, 2] := by
  have hrun : _async_setup_mqtt connectFails st =
      (st, [Event.connectAttempt 0, Event.sleep 1, Event.connectAttempt 1,
        Event.sleep 2, Event.connectAttempt 2], false) := by
    simp [_async_setup_mqtt, setupGo, h 0 (by norm_num), h 1 (by norm_num),
      h 2 (by norm_num)]
  refine ⟨?_, ?_, ?_, ?_⟩
  · intro f s
    cases hf0 : f 0 <;> cases hf1 : f 1 <;> cases hf2 : f 2 <;>
      simp [_async_setup_mqtt, setupGo, hf0, hf1, hf2,
        connectsOf_cons_connect, connectsOf_cons_sleep,
        connectsOf_snapshotSubs, connectsOf_nil]
  · rw [hrun]
  · rw [hrun]; rfl
  · rw [hrun]; rfl

/-- `C2` witness at an all-failing schedule. -/
theorem C2_backoff_witness :
    (_async_setup_mqtt (fun _ => true) ⟨[], false⟩).2.2 = false ∧
    sleepsOf (_async_setup_mqtt (fun _ => true) ⟨[], false⟩).2.1 = [1, 2] := by
  have h := C2_backoff (fun _ => true) ⟨[], false⟩ (fun n _ => rfl)
  exact ⟨h.2.1, h.2.2.2⟩

/-! ### Claim C3 : two-path fault classification in the outer loop -/

/-- `C3`: every channel fault is handled on exactly two paths.  A
connection-refused-class fault (setup exhaustion or `MqttConnectError`
from the loop) ends the iteration with a fresh `_async_login` and no 10s
backoff; any other `MqttError` ends it with a fixed `sleep 10` and no
re-login; neither path re-resolves endpoints, and in both cases the loop
continues with the remaining schedule. -/
theorem C3_fault_paths (st : APIState) (it : IterSchedule)
    (rest : List IterSchedule) :
    ((loopRun st (it :: rest)).2
      = (whileIter st it).2 ++ (loopRun (whileIter st it).1 rest).2) ∧
    (((_async_setup_mqtt it.connectFails st).2.2 = false ∨ it.fate = .refused) →
      (∃ pre, (whileIter st it).2 = pre ++ [Event.login]) ∧
      Event.sleep 10 ∉ (whileIter st it).2 ∧
      Event.getServerInfo ∉ (whileIter st it).2) ∧
    ((_async_setup_mqtt it.connectFails st).2.2 = true → it.fate = .dropped →
      (∃ pre, (whileIter st it).2 = pre ++ [Event.sleep 10]) ∧
      Event.login ∉ (whileIter st it).2 ∧
      Event.getServerInfo ∉ (whileIter st it).2) := by
  refine ⟨rfl, ?_, ?_⟩
  · intro hcase
    refine ⟨?_, ?_, whileIter_no_gsi st it⟩
    · rcases hcase with hfail | href
      · exact ⟨(_async_setup_mqtt it.connectFails st).2.1,
          by simp [whileIter, hfail]⟩
      · cases hs : (_async_setup_mqtt it.connectFails st).2.2
        · exact ⟨(_async_setup_mqtt it.connectFails st).2.1,
            by simp [whileIter, hs]⟩
        · exact ⟨(_async_setup_mqtt it.connectFails st).2.1
              ++ [Event.messageLoop],
            by simp [whileIter, hs, href]⟩
    · rcases hcase with hfail | href
      · simp [whileIter, hfail, setup_no_sleep10]
      · cases hs : (_async_setup_mqtt it.connectFails st).2.2
        · simp [whileIter, hs, setup_no_sleep10]
        · simp [whileIter, hs, href, setup_no_sleep10]
  · intro hs hdrop
    refine ⟨⟨(_async_setup_mqtt it.connectFails st).2.1 ++ [Event.messageLoop],
      by simp [whileIter, hs, hdrop]⟩, ?_, whileIter_no_gsi st it⟩
    simp [whileIter, hs, hdrop, setup_no_login]

/-- `C3` witness: a refused connect ends its iteration without the 10s
backoff; a dropped loop ends its iteration without a re-login. -/
theorem C3_fault_paths_witness :
    Event.sleep 10 ∉ (whileIter ⟨[], false⟩ ⟨fun _ => true, .dropped⟩).2 ∧
    Event.login ∉ (whileIter ⟨[], false⟩ ⟨fun _ => false, .dropped⟩).2 :=
  ⟨((C3_fault_paths ⟨[], false⟩ ⟨fun _ => true, .dropped⟩ []).2.1
      (Or.inl (by decide))).2.1,
   ((C3_fault_paths ⟨[], false⟩ ⟨fun _ => false, .dropped⟩ []).2.2
      (by decide) rfl).2.1⟩

/-! ### Claim C4 : endpoint resolution frequency -/

/-- `C4` counterexample: a trace where a connection-refused fault forces a
re-login (two `login` events) still contains exactly one endpoint
resolution — nothing is recomputed before the next connect attempt. -/
theorem C4_counterexample :
    (async_start ⟨[], false⟩
      [⟨fun _ => true, .dropped⟩, ⟨fun _ => false, .dropped⟩]).2.count
        Event.getServerInfo = 1 ∧
    (async_start ⟨[], false⟩
      [⟨fun _ => true, .dropped⟩, ⟨fun _ => false, .dropped⟩]).2.count
        Event.login = 2 := by
  decide

/-- `C4` (amended): server endpoints are resolved exactly once, during
startup before the supervisor loop; after any fault — including a
connection-refused fault that forces a re-login — the next connect reuses
the previously resolved endpoints, with no re-resolution. -/
theorem C4_endpoints_once (st : APIState) (sched : List IterSchedule) :
    ∃ rest, (async_start st sched).2
        = Event.login :: Event.getServerInfo :: Event.discoverLights :: rest ∧
      Event.getServerInfo ∉ rest :=
  ⟨(loopRun st sched).2, rfl, loopRun_no_gsi sched st⟩

/-- `C4` (amended) witness at a concrete schedule. -/
theorem C4_endpoints_once_witness :
    Event.getServerInfo
      ∉ (loopRun ⟨[], false⟩ [⟨fun _ => true, .dropped⟩]).2 := by
  obtain ⟨rest, heq, hmem⟩ :=
    C4_endpoints_once ⟨[], false⟩ [⟨fun _ => true, .dropped⟩]
  have h₃ : Event.login :: Event.getServerInfo :: Event.discoverLights ::
      (loopRun (⟨[], false⟩ : APIState) [⟨fun _ => true, .dropped⟩]).2
      = Event.login :: Event.getServerInfo :: Event.discoverLights :: rest := heq
  have h₂ : (loopRun (⟨[], false⟩ : APIState)
      [⟨fun _ => true, .dropped⟩]).2 = rest := by
    simpa using h₃
  rw [h₂]
  exact hmem

/-! ### Claim C5 : subscription replay on connect -/

theorem setupGo_success (f : Nat → Bool) (st : APIState) :
    ∀ attempts, (setupGo f st attempts).2.2 = true →
      ∃ pre, (setupGo f st attempts).2.1
          = pre ++ snapshotSubs { st with mqttLive := true } ∧
        ∀ t, Event.subscribe t ∉ pre := by
  intro attempts
  induction attempts generalizing st with
  | nil => simp [setupGo]
  | cons a rest ih =>
    intro hok
    by_cases hf : f a
    · by_cases ha : a < 2
      · simp only [setupGo, hf, if_true, ha] at hok ⊢
        obtain ⟨pre, heq, hpre⟩ := ih st hok
        refine ⟨Event.connectAttempt a :: Event.sleep (2 ^ a) :: pre,
          by simp [heq], ?_⟩
        intro t hmem
        rcases List.mem_cons.mp hmem with h | h
        · exact Event.noConfusion h
        · rcases List.mem_cons.mp h with h₁ | h₁
          · exact Event.noConfusion h₁
          · exact hpre t h₁
      · simp [setupGo, hf, ha] at hok
    · simp only [setupGo, hf, if_false]
      exact ⟨[Event.connectAttempt a], rfl, by simp⟩

/-- `C5`: on every successful channel connect, the full topic list of
every device in the registry's snapshot at that moment is subscribed —
the trace ends with exactly the snapshot's subscriptions — and the
supervisor only then advances to the message loop.  A device registered
before any channel exists is subscribed nothing at registration time and
exactly once by the connect-time replay. -/
theorem C5_subscription_replay (f : Nat → Bool) (st : APIState) (l : Light) :
    ((_async_setup_mqtt f st).2.2 = true →
      ∃ pre, (_async_setup_mqtt f st).2.1
          = pre ++ (st.lights.map Prod.snd).flatMap
              (fun d => (mqtt_topics d).map Event.subscribe) ∧
        ∀ t, Event.subscribe t ∉ pre) ∧
    (∀ it : IterSchedule, (_async_setup_mqtt it.connectFails st).2.2 = true →
      ∃ tail, (whileIter st it).2
          = (_async_setup_mqtt it.connectFails st).2.1
            ++ Event.messageLoop :: tail) ∧
    (st.lights = [] → st.mqttLive = false →
      (∀ t, Event.subscribe t ∉ (async_register_light st l).2) ∧
      ∀ t ∈ mqtt_topics l,
        ((async_register_light st l).2
          ++ (_async_setup_mqtt (fun _ => false)
                (async_register_light st l).1).2.1).count
            (Event.subscribe t) = 1) := by
  refine ⟨?_, ?_, ?_⟩
  · intro hok
    obtain ⟨pre, heq, hpre⟩ := setupGo_success f st [0, 1, 2] hok
    exact ⟨pre, heq, hpre⟩
  · intro it hok
    cases hfate : it.fate
    · exact ⟨[Event.login], by simp [whileIter, hok, hfate]⟩
    · exact ⟨[Event.sleep 10], by simp [whileIter, hok, hfate]⟩
  · intro hempty hdead
    obtain ⟨lights, live⟩ := st
    simp only at hempty hdead
    subst hempty
    subst hdead
    constructor
    · intro t hmem
      simp [async_register_light, _subscribe_light] at hmem
    · intro t ht
      simp only [mqtt_topics, List.mem_singleton] at ht
      subst ht
      simp [async_register_light, _subscribe_light, _async_setup_mqtt,
        setupGo, snapshotSubs, dinsert, mqtt_topics, List.count_cons,
        List.count_nil]

/-- `C5` witness: one device registered before the channel exists, then a
first-attempt connect — its topic is subscribed exactly once. -/
theorem C5_subscription_replay_witness :
    ((async_register_light ⟨[], false⟩ ⟨"d1"⟩).2
      ++ (_async_setup_mqtt (fun _ => false)
            (async_register_light ⟨[], false⟩ ⟨"d1"⟩).1).2.1).count
        (Event.subscribe "wifielement/d1/status") = 1 := by
  have h := (C5_subscription_replay (fun _ => false) ⟨[], false⟩ ⟨"d1"⟩).2.2
    rfl rfl
  exact h.2 _ (by decide)

/-! ### Claim C9 : outbound publish -/

/-- `C9`: every outbound batch is addressed to the device's command topic
`wifielement/{id}/update`; the device identifier and the millisecond
timestamp are attached to every directive of the batch; and a
publish-time transport fault is caught and logged — the call always
returns normally, with exactly one publish attempt and no retry. -/
theorem C9_publish (uid : String) (now : Int) (msgs : List Directive)
    (fault : PublishFault) :
    (_async_send_updates uid now msgs).topic
      = "wifielement/" ++ uid ++ "/update" ∧
    (_async_send_updates uid now msgs).payload.length = msgs.length ∧
    (∀ d ∈ (_async_send_updates uid now msgs).payload,
      dlookup "dn" d = some (PVal.s uid) ∧
      dlookup "time" d = some (PVal.n now)) ∧
    ∃ logs, async_mqtt_publish fault (_async_send_updates uid now msgs)
      = Except.ok logs := by
  refine ⟨rfl, by simp [_async_send_updates], ?_, ?_⟩
  · intro d hd
    simp only [_async_send_updates, List.mem_map] at hd
    obtain ⟨m, _, rfl⟩ := hd
    constructor
    · rw [dlookup_dupdate]
      simp [dlookup, oor]
    · rw [dlookup_dupdate]
      simp [dlookup, oor]
  · cases fault
    · exact ⟨0, rfl⟩
    · exact ⟨1, rfl⟩

/-- `C9` witness at a concrete directive batch and a faulting transport. -/
theorem C9_publish_witness :
    (_async_send_updates "d1" 5 [[("type", PVal.s "switch")]]).topic
      = "wifielement/d1/update" ∧
    dlookup "dn" (dupdate [("type", PVal.s "switch")]
      [("dn", PVal.s "d1"), ("time", PVal.n 5)]) = some (PVal.s "d1") :=
  ⟨(C9_publish "d1" 5 [[("type", PVal.s "switch")]] .ok).1,
   ((C9_publish "d1" 5 [[("type", PVal.s "switch")]]
      (.mqttError "boom")).2.2.1 _ (by decide)).1⟩

/-! ### Claim C10 : registration -/

/-- `C10`: registering a device inserts it into the registry (under the
lock) first, and then — exactly when a live channel currently exists —
subscribes the device's topics as part of the call; with no channel the
call records the device and subscribes nothing. -/
theorem C10_register (st : APIState) (l : Light) :
    dlookup l.uniqueId (async_register_light st l).1.lights = some l ∧
    (async_register_light st l).1.mqttLive = st.mqttLive ∧
    (async_register_light st l).2
      = Event.registryInsert l.uniqueId ::
        (if st.mqttLive then (mqtt_topics l).map Event.subscribe else []) := by
  refine ⟨?_, rfl, rfl⟩
  show dlookup l.uniqueId (dinsert st.lights l.uniqueId l) = some l
  rw [dlookup_dinsert, if_pos rfl]

/-- `C10` witness: registering into an empty registry with no channel. -/
theorem C10_register_witness :
    dlookup "d2" (async_register_light ⟨[], false⟩ ⟨"d2"⟩).1.lights
      = some ⟨"d2"⟩ :=
  (C10_register ⟨[], false⟩ ⟨"d2"⟩).1

end Sengled
